import Mathlib

/-!
# Verification of the Bedrock chat frontend session controller

Shallow embedding of the refactored component in
src/frontend/src/components/BedrockClaudeChat.tsx (function
BedrockClaudeChatRefactor): chat submission, response normalization, and
the user-story preview/approve workflow.

Strings are modelled as lists of characters.  Each async handler is split
into a pure synchronous start function (everything up to the point where
the network request is issued, returning the updated state together with
the optional request payload) and pure success/failure settle functions
(the code after the await, including the finally block).
-/

namespace Bedrock

/-- Strings are modelled as lists of characters. -/
abbrev Str := List Char

/-- JS whitespace as used by trim (ASCII fragment). -/
def isWs (c : Char) : Bool := c == ' ' || c == '\t' || c == '\n' || c == '\r'

/-- Model of the trim method of JS strings: drop leading and trailing
whitespace. -/
def trimStr (s : Str) : Str :=
  ((s.dropWhile isWs).reverse.dropWhile isWs).reverse

/-- Worker for cleanMultiline.  The flag records whether the scanner is
inside a newline run from which two newlines have already been emitted:
in that mode further newlines of the run are dropped.  Hence every
maximal run of three or more newlines is replaced by exactly two, and
shorter runs are left unchanged (the theorems cleanMultiline_step3 and
cleanMultiline_step1 below certify that this agrees with the one-step
rewriting semantics of the regex replacement). -/
def collapseGo : Bool → Str → Str
  | _, [] => []
  | true, c :: rest =>
      if c == '\n' then collapseGo true rest else c :: collapseGo false rest
  | false, c :: rest =>
      if c == '\n' then
        match rest with
        | [] => [c]
        | d :: rest2 =>
          if d == '\n' then '\n' :: '\n' :: collapseGo true rest2
          else c :: collapseGo false (d :: rest2)
      else c :: collapseGo false rest

/-- Model of cleanMultiline (lines 52-54 of the component): the regex
replacement collapsing every run of three or more newlines to two. -/
def cleanMultiline (s : Str) : Str := collapseGo false s

/-- Speaker of a transcript turn. -/
inductive Role where
  | user
  | assistant
deriving DecidableEq, Repr

/-- Transcript turn type Msg (line 6): role plus content. -/
structure Msg where
  role : Role
  content : Str
deriving DecidableEq, Repr

/-- Citation record (line 8): reference string with optional score. -/
structure Citation where
  uri : Str
  score : Option Int := none
deriving DecidableEq, Repr

/-- Model of asCitations (lines 56-58): wrap each source id in a
citation record. -/
def asCitations (arr : Option (List Str)) : List Citation :=
  (arr.getD []).map (fun u => { uri := u })

/-- Response type ChatResponse (lines 12-16): all fields optional. -/
structure ChatResponse where
  answer : Option Str := none
  kendra_sources : Option (List Str) := none
  saved : Option Str := none
deriving DecidableEq, Repr

/-- Response type GenStoryPreview (lines 18-22). -/
structure GenStoryPreviewResp where
  preview : Str
  kendra_sources : List Str
deriving DecidableEq, Repr

/-- Response type GenStorySaved (lines 24-27): an opaque storage
locator. -/
structure GenStorySavedResp where
  saved : Str
deriving DecidableEq, Repr

/-- Chat endpoint path (API.chat, line 31). -/
def API_chat : Str := "/api/chat".data

/-- Generator endpoint for user stories (API.story, line 32). -/
def API_story : Str := "/api/gen/user-story".data

/-- One message of the chat request body: role and content only. -/
structure WireMsg where
  role : Role
  content : Str
deriving DecidableEq, Repr

/-- Outgoing chat request: URL plus ordered message history. -/
structure ChatRequest where
  url : Str
  messages : List WireMsg
deriving DecidableEq, Repr

/-- Outgoing generator request body (objetivo, contexto, approve). -/
structure StoryRequest where
  url : Str
  objetivo : Str
  contexto : Option Str
  approve : Bool
deriving DecidableEq, Repr

/-- Chat-tab component state (lines 68-78). -/
structure ChatState where
  messages : List Msg
  input : Str
  chatLoading : Bool
  chatError : Option Str
  chatCitations : List Citation
deriving DecidableEq, Repr

/-- Story-tab component state (lines 81-87). -/
structure StoryState where
  storyObj : Str
  storyCtx : Str
  storyLoading : Bool
  storyError : Option Str
  storyPreview : Str
  storySavedUri : Option Str
  storyCitations : List Citation
deriving DecidableEq, Repr

/-- Greeting text of the initial assistant turn (lines 69-73). -/
def greetingText : Str :=
  "Olá! Este front usa o backend FastAPI: /chat (chat com Kendra) e /gen/user-story (prévia ➜ aprovar ➜ salvar no S3).".data

/-- Initial chat state (lines 68-78): one assistant greeting turn. -/
def initChatState : ChatState :=
  { messages := [{ role := Role.assistant, content := greetingText }],
    input := [], chatLoading := false, chatError := none, chatCitations := [] }

/-- Model of the idiom used at lines 167 and 192 where an empty context
string becomes null in the request body. -/
def ctxOrNull (c : Str) : Option Str := if c = [] then none else some c

/-- Em-dash placeholder substituted when a normalized answer is empty
(line 126). -/
def emDash : Str := "—".data

/-- Validation hint set when the objective is blank (line 154). -/
def hintObjetivo : Str := "Informe o objetivo.".data

/-- Synchronous part of onSendChat (lines 95-114): guard on blank input
or an in-flight request, clear input, error and citations, append the
user turn, set loading and issue one request whose body is the new
history mapped to role/content pairs. -/
def onSendChatStart (s : ChatState) : ChatState × Option ChatRequest :=
  let text := trimStr s.input
  if text = [] ∨ s.chatLoading = true then (s, none)
  else
    let userMsg : Msg := { role := Role.user, content := text }
    let nextMessages := s.messages ++ [userMsg]
    ({ s with input := [], chatError := none, chatCitations := [],
              messages := nextMessages, chatLoading := true },
     some { url := API_chat,
            messages := nextMessages.map
              (fun m => { role := m.role, content := m.content }) })

/-- Normalized answer text (lines 122 and 126): cleanMultiline applied
to the trimmed answer, with the em-dash placeholder substituted when the
result is empty. -/
def answerText (d : ChatResponse) : Str :=
  let answer := cleanMultiline (trimStr (d.answer.getD []))
  if answer = [] then emDash else answer

/-- Response normalization of the chat path (lines 121-126): display
text plus citations derived from kendra_sources. -/
def normalizeChat (d : ChatResponse) : Str × List Citation :=
  (answerText d, asCitations d.kendra_sources)

/-- Success settle of onSendChat (lines 121-133): record citations,
append one assistant turn, clear loading. -/
def onSendChatSuccess (s : ChatState) (d : ChatResponse) : ChatState :=
  { s with chatCitations := asCitations d.kendra_sources,
           messages := s.messages ++
             [{ role := Role.assistant, content := answerText d }],
           chatLoading := false }

/-- Failure settle of onSendChat (lines 127-133): record the banner
error and clear loading; the transcript is not touched. -/
def onSendChatFailure (s : ChatState) (msg : Str) : ChatState :=
  { s with chatError := some msg, chatLoading := false }

/-- Synchronous part of onStoryPreview (lines 152-168): a blank
objective short-circuits with a hint and no request; otherwise error,
preview, saved uri and citations are cleared, loading is set, and the
preview request is issued from the current fields. -/
def onStoryPreviewStart (s : StoryState) : StoryState × Option StoryRequest :=
  if trimStr s.storyObj = [] then
    ({ s with storyError := some hintObjetivo }, none)
  else
    ({ s with storyError := none, storyPreview := [], storySavedUri := none,
              storyCitations := [], storyLoading := true },
     some { url := API_story, objetivo := s.storyObj,
            contexto := ctxOrNull s.storyCtx, approve := false })

/-- Success settle of onStoryPreview (lines 173-181). -/
def onStoryPreviewSuccess (s : StoryState) (d : GenStoryPreviewResp) : StoryState :=
  { s with storyPreview := cleanMultiline d.preview,
           storyCitations := asCitations (some d.kendra_sources),
           storyLoading := false }

/-- Failure settle of onStoryPreview (lines 176-181). -/
def onStoryPreviewFailure (s : StoryState) (m : Str) : StoryState :=
  { s with storyError := some m, storyLoading := false }

/-- Synchronous part of onStoryApprove (lines 184-193): the only guard
is a blank objective; otherwise loading is set, the error is cleared,
and the approve request is built from the current storyObj and storyCtx
fields. -/
def onStoryApproveStart (s : StoryState) : StoryState × Option StoryRequest :=
  if trimStr s.storyObj = [] then (s, none)
  else
    ({ s with storyLoading := true, storyError := none },
     some { url := API_story, objetivo := s.storyObj,
            contexto := ctxOrNull s.storyCtx, approve := true })

/-- Success settle of onStoryApprove (lines 198-205): record the
returned storage locator (empty string becomes null), clear loading. -/
def onStoryApproveSuccess (s : StoryState) (d : GenStorySavedResp) : StoryState :=
  { s with storySavedUri := if d.saved = [] then none else some d.saved,
           storyLoading := false }

/-- Failure settle of onStoryApprove (lines 200-205): record the error
and clear loading; preview, citations and saved uri are untouched. -/
def onStoryApproveFailure (s : StoryState) (m : Str) : StoryState :=
  { s with storyError := some m, storyLoading := false }

/-- Reset handler clearStory (lines 208-215); the loading flag is not
touched by the handler. -/
def clearStory (s : StoryState) : StoryState :=
  { s with storyObj := [], storyCtx := [], storyPreview := [],
           storySavedUri := none, storyCitations := [], storyError := none }

/-- Lower-case a character list. -/
def lowerStr (s : Str) : Str := s.map Char.toLower

/-- Modelled from the spec: the repository sources contain no command
parser (the spec describes one in its section 4.1, but only the form-based
UI exists under src/); this ParsedCommand value follows the spec wording:
generator kind, objective, optional context. -/
structure ParsedCommand where
  kind : Str
  objective : Str
  context : Option Str
deriving DecidableEq, Repr

/-- Modelled from the spec: the fixed, extensible set of command tokens,
each a leading marker character followed by the command name; the spec
names a story command and an rtr command. -/
def commandTokens : List (Str × Str) :=
  [("/story".data, "story".data), ("/rtr".data, "rtr".data)]

/-- Modelled from the spec: the delimiter separating the objective from
the optional context segment — a literal pipe followed by a context
marker and colon, matched case-insensitively. -/
def ctxDelim : Str := "| ctx:".data

/-- Modelled from the spec: a token matches when it introduces the
trimmed input case-insensitively and is followed by nothing or by
whitespace. -/
def tokenMatches (tok : Str) (s : Str) : Bool :=
  tok.isPrefixOf (lowerStr s) &&
    (match s.drop tok.length with
     | [] => true
     | c :: _ => isWs c)

/-- Modelled from the spec: collapse internal whitespace runs to single
spaces.  The flag records whether the previous character belonged to a
whitespace run. -/
def collapseWsGo : Bool → Str → Str
  | _, [] => []
  | true, c :: rest =>
      if isWs c then collapseWsGo true rest else c :: collapseWsGo false rest
  | false, c :: rest =>
      if isWs c then ' ' :: collapseWsGo true rest else c :: collapseWsGo false rest

/-- Modelled from the spec: whitespace-run collapapsing entry point. -/
def collapseSpaces (s : Str) : Str := collapseWsGo false s

/-- Modelled from the spec: split a string at the first occurrence of
the delimiter (case-insensitive); returns the parts before and after,
or none if the delimiter does not occur. -/
def splitOnDelim (d : Str) : Str → Option (Str × Str)
  | [] => none
  | c :: rest =>
      if d.isPrefixOf (lowerStr (c :: rest)) then
        some ([], (c :: rest).drop d.length)
      else
        match splitOnDelim d rest with
        | some (pre, post) => some (c :: pre, post)
        | none => none

/-- Modelled from the spec: the command parser of spec section 4.1,
missing from src/.  Trims the input; if no recognized command token
introduces it, returns none; otherwise strips the token, collapses
whitespace runs, splits the remainder on the context delimiter, and
returns the parsed command (context none when no delimiter occurs). -/
def parse (raw : Str) : Option ParsedCommand :=
  let s := trimStr raw
  match commandTokens.find? (fun t => tokenMatches t.1 s) with
  | none => none
  | some (tok, kind) =>
      let rest := collapseSpaces (trimStr (s.drop tok.length))
      match splitOnDelim ctxDelim rest with
      | none => some { kind := kind, objective := trimStr rest, context := none }
      | some (pre, post) =>
          some { kind := kind, objective := trimStr pre,
                 context := some (trimStr post) }

/-- Predicate: three consecutive newlines occur somewhere in the string
(the pattern matched by the cleanMultiline regex). -/
def hasTripleNL : Str → Bool
  | a :: b :: c :: rest => (a == '\n' && b == '\n' && c == '\n') || hasTripleNL (b :: c :: rest)
  | _ => false

/-- Predicate: the string starts with a newline. -/
def startsNL (s : Str) : Bool :=
  match s with
  | c :: _ => c == '\n'
  | [] => false

/-- Predicate: the string starts with two newlines. -/
def startsNN (s : Str) : Bool :=
  match s with
  | b :: c :: _ => b == '\n' && c == '\n'
  | _ => false

/-- Predicate: neither the first nor the last character is whitespace. -/
def noEdgeWs (s : Str) : Bool :=
  (match s.head? with
   | none => true
   | some c => !isWs c) &&
  (match s.getLast? with
   | none => true
   | some c => !isWs c)

/-- Example story state about to be previewed. -/
def storyExample : StoryState :=
  { storyObj := "fix login".data, storyCtx := [], storyLoading := false,
    storyError := none, storyPreview := [], storySavedUri := none,
    storyCitations := [] }

/-- Example generator preview response. -/
def previewRespExample : GenStoryPreviewResp :=
  { preview := "Draft story".data, kendra_sources := ["doc1".data] }

/-- Example story state whose artifact has already been saved. -/
def storySavedExample : StoryState :=
  { storyObj := "fix login".data, storyCtx := [], storyLoading := false,
    storyError := none, storyPreview := "Draft story".data,
    storySavedUri := some "s3://bucket/story-1.md".data, storyCitations := [] }

/-- Example chat state with pending input. -/
def chatHiState : ChatState := { initChatState with input := "hi".data }

theorem collapseGo_nil (b : Bool) : collapseGo b [] = [] := by cases b <;> rfl

theorem collapseGo_true_cons (c : Char) (rest : Str) :
    collapseGo true (c :: rest) =
      if c == '\n' then collapseGo true rest else c :: collapseGo false rest := rfl

theorem collapseGo_false_one (c : Char) : collapseGo false [c] = [c] := by
  by_cases hc : c = '\n'
  · subst hc; rfl
  · show (if c == '\n' then _ else c :: collapseGo false []) = [c]
    rw [if_neg (by simp [hc])]
    rfl

theorem collapseGo_false_cons2 (c d : Char) (r : Str) :
    collapseGo false (c :: d :: r) =
      if c == '\n' then
        (if d == '\n' then '\n' :: '\n' :: collapseGo true r
         else c :: collapseGo false (d :: r))
      else c :: collapseGo false (d :: r) := rfl

theorem hasTripleNL_cons (c : Char) (t : Str) :
    hasTripleNL (c :: t) = (((c == '\n') && startsNN t) || hasTripleNL t) := by
  match t with
  | [] => simp [hasTripleNL, startsNN]
  | [b] => simp [hasTripleNL, startsNN]
  | b :: d :: rest => simp [hasTripleNL, startsNN, Bool.and_assoc]

theorem hasTripleNL_cons_false (c : Char) (t : Str)
    (h : hasTripleNL (c :: t) = false) : hasTripleNL t = false := by
  rw [hasTripleNL_cons] at h
  exact (Bool.or_eq_false_iff.mp h).2

theorem startsNN_cons (c : Char) (t : Str) :
    startsNN (c :: t) = ((c == '\n') && startsNL t) := by
  cases t <;> simp [startsNN, startsNL]

theorem startsNN_of_startsNL (t : Str) (h : startsNL t = false) :
    startsNN t = false := by
  cases t with
  | nil => rfl
  | cons a r => rw [startsNN_cons]; simp [startsNL] at h; simp [h]

theorem startsNN_head (t : Str) (c : Char) (h : t.head? = some c)
    (hc : ¬c = '\n') : startsNN t = false := by
  cases t with
  | nil => rfl
  | cons a r =>
    simp at h
    rw [startsNN_cons, h]
    simp [hc]

theorem startsNL_head (t : Str) (c : Char) (h : t.head? = some c)
    (hc : ¬c = '\n') : startsNL t = false := by
  cases t with
  | nil => rfl
  | cons a r => simp at h; simp [startsNL, h, hc]

theorem collapseGo_false_head (c : Char) (r : Str) :
    (collapseGo false (c :: r)).head? = some c := by
  by_cases hc : c = '\n'
  · subst hc
    cases r with
    | nil => rfl
    | cons d r2 =>
      by_cases hd : d = '\n'
      · subst hd; simp [collapseGo]
      · rw [collapseGo_false_cons2, if_pos (by simp), if_neg (by simp [hd])]
        rfl
  · cases r with
    | nil => rw [collapseGo_false_one]; rfl
    | cons d r2 =>
      rw [collapseGo_false_cons2, if_neg (by simp [hc])]
      rfl

theorem getLast?_cons_of_some (c x : Char) (t : Str) (h : t.getLast? = some x) :
    (c :: t).getLast? = some x := by
  cases t with
  | nil => simp at h
  | cons a r => rw [List.getLast?_cons_cons]; exact h

theorem collapse_master (b : Bool) (s : Str) :
    hasTripleNL (collapseGo b s) = false ∧
      (b = true → startsNL (collapseGo b s) = false) := by
  induction b, s using collapseGo.induct with
  | case1 x => simp [collapseGo_nil, hasTripleNL, startsNL]
  | case2 c rest hc ih =>
    rw [collapseGo_true_cons, if_pos hc]
    exact ⟨ih.1, fun _ => ih.2 rfl⟩
  | case3 c rest hc ih =>
    rw [collapseGo_true_cons, if_neg hc]
    refine ⟨?_, fun _ => ?_⟩
    · rw [hasTripleNL_cons]
      simp only [Bool.not_eq_true] at hc
      simp [hc, ih.1]
    · simp only [Bool.not_eq_true] at hc
      simp [startsNL, hc]
  | case4 c hc =>
    rw [collapseGo_false_one]
    exact ⟨by simp [hasTripleNL], by simp⟩
  | case5 c hc d rest2 hd ih =>
    rw [collapseGo_false_cons2, if_pos hc, if_pos hd]
    refine ⟨?_, by simp⟩
    rw [hasTripleNL_cons, hasTripleNL_cons]
    have h1 : startsNL (collapseGo true rest2) = false := ih.2 rfl
    have h2 : startsNN (collapseGo true rest2) = false := startsNN_of_startsNL _ h1
    rw [startsNN_cons]
    simp [h1, h2, ih.1]
  | case6 c hc d rest2 hd ih =>
    rw [collapseGo_false_cons2, if_pos hc, if_neg hd]
    refine ⟨?_, by simp⟩
    rw [hasTripleNL_cons]
    have hdne : ¬d = '\n' := by simpa using hd
    have h2 : startsNN (collapseGo false (d :: rest2)) = false :=
      startsNN_head _ d (collapseGo_false_head d rest2) hdne
    simp [h2, ih.1]
  | case7 c rest hc ih =>
    cases rest with
    | nil =>
      rw [collapseGo_false_one]
      exact ⟨by simp [hasTripleNL], by simp⟩
    | cons d r =>
      rw [collapseGo_false_cons2, if_neg hc]
      refine ⟨?_, by simp⟩
      rw [hasTripleNL_cons]
      simp only [Bool.not_eq_true] at hc
      simp [hc, ih.1]

theorem clean_master (b : Bool) (s : Str) :
    (b = false → hasTripleNL s = false → collapseGo b s = s) ∧
      (b = true → hasTripleNL s = false → startsNL s = false → collapseGo b s = s) := by
  induction b, s using collapseGo.induct with
  | case1 x => simp [collapseGo_nil]
  | case2 c rest hc ih =>
    refine ⟨by simp, fun _ hclean hnl => ?_⟩
    simp [startsNL, hc] at hnl
  | case3 c rest hc ih =>
    refine ⟨by simp, fun _ hclean hnl => ?_⟩
    rw [collapseGo_true_cons, if_neg hc]
    rw [ih.1 rfl (hasTripleNL_cons_false c rest hclean)]
  | case4 c hc => exact ⟨fun _ _ => collapseGo_false_one c, by simp⟩
  | case5 c hc d rest2 hd ih =>
    refine ⟨fun _ hclean => ?_, by simp⟩
    rw [collapseGo_false_cons2, if_pos hc, if_pos hd]
    have hc' : c = '\n' := by simpa using hc
    have hd' : d = '\n' := by simpa using hd
    subst hc'; subst hd'
    cases rest2 with
    | nil => rw [collapseGo_nil]
    | cons e r =>
      have hclean2 : hasTripleNL (e :: r) = false :=
        hasTripleNL_cons_false _ _ (hasTripleNL_cons_false _ _ hclean)
      have he : (e == '\n') = false := by
        by_contra hcon
        simp only [hasTripleNL] at hclean
        rcases Bool.or_eq_false_iff.mp hclean with ⟨h1, _⟩
        simp only [Bool.not_eq_false] at hcon
        simp [hcon] at h1
      have hnl2 : startsNL (e :: r) = false := by simp [startsNL, he]
      rw [ih.2 rfl hclean2 hnl2]
  | case6 c hc d rest2 hd ih =>
    refine ⟨fun _ hclean => ?_, by simp⟩
    rw [collapseGo_false_cons2, if_pos hc, if_neg hd]
    rw [ih.1 rfl (hasTripleNL_cons_false _ _ hclean)]
  | case7 c rest hc ih =>
    refine ⟨fun _ hclean => ?_, by simp⟩
    cases rest with
    | nil => exact collapseGo_false_one c
    | cons d r =>
      rw [collapseGo_false_cons2, if_neg hc]
      rw [ih.1 rfl (hasTripleNL_cons_false _ _ hclean)]

theorem getLast_master (b : Bool) (s : Str) :
    ∀ x, s.getLast? = some x → ¬x = '\n' → (collapseGo b s).getLast? = some x := by
  induction b, s using collapseGo.induct with
  | case1 b => intro x hx _; simp at hx
  | case2 c rest hc ih =>
    intro x hx hxn
    have hc' : c = '\n' := by simpa using hc
    cases rest with
    | nil =>
      subst hc'; simp at hx; exact absurd hx.symm hxn
    | cons d r =>
      rw [List.getLast?_cons_cons] at hx
      rw [collapseGo_true_cons, if_pos hc]
      exact ih x hx hxn
  | case3 c rest hc ih =>
    intro x hx hxn
    rw [collapseGo_true_cons, if_neg hc]
    cases rest with
    | nil =>
      simp at hx
      subst hx
      rw [collapseGo_nil]
      simp
    | cons d r =>
      rw [List.getLast?_cons_cons] at hx
      exact getLast?_cons_of_some _ _ _ (ih x hx hxn)
  | case4 c hc =>
    intro x hx hxn
    have hc' : c = '\n' := by simpa using hc
    subst hc'
    simp at hx
    exact absurd hx.symm hxn
  | case5 c hc d rest2 hd ih =>
    intro x hx hxn
    rw [List.getLast?_cons_cons] at hx
    cases rest2 with
    | nil =>
      have hd' : d = '\n' := by simpa using hd
      subst hd'; simp at hx; exact absurd hx.symm hxn
    | cons e r =>
      rw [List.getLast?_cons_cons] at hx
      rw [collapseGo_false_cons2, if_pos hc, if_pos hd]
      exact getLast?_cons_of_some _ _ _ (getLast?_cons_of_some _ _ _ (ih x hx hxn))
  | case6 c hc d rest2 hd ih =>
    intro x hx hxn
    rw [List.getLast?_cons_cons] at hx
    rw [collapseGo_false_cons2, if_pos hc, if_neg hd]
    exact getLast?_cons_of_some _ _ _ (ih x hx hxn)
  | case7 c rest hc ih =>
    intro x hx hxn
    cases rest with
    | nil =>
      simp at hx
      subst hx
      rw [collapseGo_false_one]
      simp
    | cons d r =>
      rw [List.getLast?_cons_cons] at hx
      rw [collapseGo_false_cons2, if_neg hc]
      exact getLast?_cons_of_some _ _ _ (ih x hx hxn)

theorem collapseGo_false_cons_not_nl (e : Char) (r : Str)
    (he : (e == '\n') = false) :
    collapseGo false (e :: r) = e :: collapseGo false r := by
  cases r with
  | nil => rw [collapseGo_false_one, collapseGo_nil]
  | cons f r2 => rw [collapseGo_false_cons2, if_neg (by simp [he])]

theorem cleanMultiline_step3 (s : Str) :
    cleanMultiline ('\n' :: '\n' :: '\n' :: s) = cleanMultiline ('\n' :: '\n' :: s) := by
  show collapseGo false _ = collapseGo false _
  rw [collapseGo_false_cons2, if_pos (by simp), if_pos (by simp)]
  rw [collapseGo_false_cons2, if_pos (by simp), if_pos (by simp)]
  rw [collapseGo_true_cons, if_pos (by simp)]

theorem cleanMultiline_step1 (c : Char) (rest : Str)
    (h : c = '\n' → startsNN rest = false) :
    cleanMultiline (c :: rest) = c :: cleanMultiline rest := by
  show collapseGo false _ = _
  by_cases hc : c = '\n'
  · subst hc
    cases rest with
    | nil => rfl
    | cons d r =>
      by_cases hd : d = '\n'
      · subst hd
        have hr : startsNL r = false := by
          have := h rfl
          rw [startsNN_cons] at this
          simpa using this
        rw [collapseGo_false_cons2, if_pos (by simp), if_pos (by simp)]
        cases r with
        | nil => rfl
        | cons e r2 =>
          have he : (e == '\n') = false := by simpa [startsNL] using hr
          show '\n' :: '\n' :: collapseGo true (e :: r2) =
            '\n' :: collapseGo false ('\n' :: e :: r2)
          rw [collapseGo_true_cons, if_neg (by simp [he])]
          rw [collapseGo_false_cons2, if_pos (by simp), if_neg (by simp [he])]
          rw [collapseGo_false_cons_not_nl e r2 he]
      · rw [collapseGo_false_cons2, if_pos (by simp), if_neg (by simp [hd])]
        rfl
  · exact collapseGo_false_cons_not_nl c rest (by simp [hc])

theorem head?_dropWhile_isWs (l : Str) :
    ∀ c, (l.dropWhile isWs).head? = some c → isWs c = false := by
  induction l with
  | nil => intro c hc; simp at hc
  | cons a t ih =>
    intro c hc
    by_cases ha : isWs a = true
    · rw [List.dropWhile_cons, if_pos ha] at hc
      exact ih c hc
    · rw [List.dropWhile_cons, if_neg ha] at hc
      simp at hc
      subst hc
      simpa using ha

theorem trimStr_noEdge (s : Str) : noEdgeWs (trimStr s) = true := by
  unfold noEdgeWs
  have hlast : ∀ c, (trimStr s).getLast? = some c → isWs c = false := by
    intro c hc
    rw [trimStr, List.getLast?_reverse] at hc
    exact head?_dropWhile_isWs _ c hc
  have hhead : ∀ c, (trimStr s).head? = some c → isWs c = false := by
    intro c hc
    obtain ⟨u, hu⟩ :=
      List.dropWhile_suffix (l := (s.dropWhile isWs).reverse) isWs
    have hN : s.dropWhile isWs =
        (((s.dropWhile isWs).reverse.dropWhile isWs).reverse ++ u.reverse) := by
      calc s.dropWhile isWs = (s.dropWhile isWs).reverse.reverse := by
            rw [List.reverse_reverse]
        _ = (u ++ (s.dropWhile isWs).reverse.dropWhile isWs).reverse := by rw [hu]
        _ = _ := by rw [List.reverse_append]
    have hc2 : (s.dropWhile isWs).head? = some c := by
      rw [hN, List.head?_append]
      rw [trimStr] at hc
      rw [hc]
      rfl
    exact head?_dropWhile_isWs _ c hc2
  cases hh : (trimStr s).head? with
  | none => cases hl : (trimStr s).getLast? with
    | none => rfl
    | some c => simp [hlast c hl]
  | some c => cases hl : (trimStr s).getLast? with
    | none => simp [hhead c hh]
    | some d => simp [hhead c hh, hlast d hl]

theorem clean_noEdge (s : Str) (h : noEdgeWs s = true) :
    noEdgeWs (cleanMultiline s) = true := by
  cases s with
  | nil => rfl
  | cons c r =>
    unfold noEdgeWs at h ⊢
    unfold cleanMultiline
    rw [show (collapseGo false (c :: r)).head? = some c from collapseGo_false_head c r]
    cases hl : (c :: r).getLast? with
    | none => simp [List.getLast?_eq_none_iff] at hl
    | some x =>
      rw [hl] at h
      simp only [List.head?_cons] at h
      simp only [Bool.and_eq_true] at h
      obtain ⟨h1, h2⟩ := h
      have hxw : isWs x = false := by simpa using h2
      have hxn : ¬x = '\n' := by
        intro hxe
        subst hxe
        simp [isWs] at hxw
      rw [getLast_master false (c :: r) x hl hxn]
      simp only [Bool.and_eq_true]
      exact ⟨h1, by simp [hxw]⟩


/-! ## Claim theorems -/

/-- C1 (counterexample): after a successful preview of the objective
"fix login", editing the objective to "other" and then approving issues
a request derived from the edited field, which is not the previewed
request payload with the approve flag forced to true. -/
theorem approve_rederives_from_ui_cex :
    (onStoryPreviewStart storyExample).2 =
      some { url := API_story, objetivo := "fix login".data,
             contexto := none, approve := false } ∧
    (onStoryApproveStart
        { (onStoryPreviewSuccess (onStoryPreviewStart storyExample).1
            previewRespExample) with storyObj := "other".data }).2 =
      some { url := API_story, objetivo := "other".data,
             contexto := none, approve := true } ∧
    decide ((onStoryApproveStart
        { (onStoryPreviewSuccess (onStoryPreviewStart storyExample).1
            previewRespExample) with storyObj := "other".data }).2 =
      some { url := API_story, objetivo := "fix login".data,
             contexto := none, approve := true }) = false := by
  refine ⟨by decide, by decide, by decide⟩

/-- C1 (amended): the approve request is built from the current
storyObj and storyCtx fields with approve forced to true; it therefore
coincides with the preview-time payload (with the approve flag flipped)
exactly when those fields are unchanged since the preview. -/
theorem approve_request_from_current_state (s p : StoryState)
    (r : StoryRequest) (hs : ¬trimStr s.storyObj = [])
    (hp : (onStoryPreviewStart p).2 = some r) :
    (onStoryApproveStart s).2 =
      some { url := API_story, objetivo := s.storyObj,
             contexto := ctxOrNull s.storyCtx, approve := true } ∧
    (p.storyObj = s.storyObj → p.storyCtx = s.storyCtx →
      (onStoryApproveStart s).2 = some { r with approve := true }) := by
  have h1 : (onStoryApproveStart s).2 =
      some { url := API_story, objetivo := s.storyObj,
             contexto := ctxOrNull s.storyCtx, approve := true } := by
    unfold onStoryApproveStart
    rw [if_neg hs]
  refine ⟨h1, fun ho hc => ?_⟩
  unfold onStoryPreviewStart at hp
  by_cases hpb : trimStr p.storyObj = []
  · rw [if_pos hpb] at hp
    simp at hp
  · rw [if_neg hpb] at hp
    simp only [Option.some.injEq] at hp
    rw [h1, ← hp, ho, hc]

/-- C1 (witness): the amended theorem applied to a concrete state. -/
theorem approve_request_from_current_state_witness :
    (onStoryApproveStart storyExample).2 =
      some { url := API_story, objetivo := "fix login".data,
             contexto := none, approve := true } :=
  (approve_request_from_current_state storyExample storyExample
    { url := API_story, objetivo := "fix login".data, contexto := none,
      approve := false } (by decide) (by decide)).1

/-- C2 (counterexample): approving a turn whose savedLocation is
already set still issues the approve request and still mutates state
(the loading flag is raised), so the second approve is not a no-op. -/
theorem approve_after_save_issues_request_cex :
    storySavedExample.storySavedUri = some "s3://bucket/story-1.md".data ∧
    (onStoryApproveStart storySavedExample).2 =
      some { url := API_story, objetivo := "fix login".data,
             contexto := none, approve := true } ∧
    decide ((onStoryApproveStart storySavedExample).1 = storySavedExample)
      = false := by
  refine ⟨by decide, by decide, by decide⟩

/-- C2 (amended): the only local guard of the approve operation is a
blank trimmed objective; a set savedLocation neither suppresses the
request nor changes which request is issued. -/
theorem approve_guard_only_blank_objective (s : StoryState) :
    (trimStr s.storyObj = [] → onStoryApproveStart s = (s, none)) ∧
    (¬trimStr s.storyObj = [] →
      (onStoryApproveStart s).2 =
        some { url := API_story, objetivo := s.storyObj,
               contexto := ctxOrNull s.storyCtx, approve := true }) ∧
    (∀ u : Option Str,
      (onStoryApproveStart { s with storySavedUri := u }).2 =
        (onStoryApproveStart s).2) := by
  refine ⟨fun h => ?_, fun h => ?_, fun u => ?_⟩
  · unfold onStoryApproveStart
    rw [if_pos h]
  · unfold onStoryApproveStart
    rw [if_neg h]
  · unfold onStoryApproveStart
    by_cases h : trimStr s.storyObj = []
    · rw [if_pos h, if_pos h]
    · rw [if_neg h, if_neg h]

/-- C2 (witness): the amended theorem applied to the saved example
state. -/
theorem approve_guard_only_blank_objective_witness :
    (onStoryApproveStart storySavedExample).2 =
      some { url := API_story, objetivo := "fix login".data,
             contexto := none, approve := true } :=
  (approve_guard_only_blank_objective storySavedExample).2.1 (by decide)

/-- C3 (counterexample): an accepted submission whose request fails
leaves the transcript with only the appended user turn — no assistant
content turn and no error turn — while the failure is recorded only in
the banner-level error field. -/
theorem chat_failure_no_ack_cex :
    (onSendChatStart chatHiState).2.isSome = true ∧
    (onSendChatFailure (onSendChatStart chatHiState).1
        "HTTP 500".data).messages =
      initChatState.messages ++ [{ role := Role.user, content := "hi".data }] ∧
    (onSendChatFailure (onSendChatStart chatHiState).1
        "HTTP 500".data).chatError = some "HTTP 500".data := by
  refine ⟨by decide, by decide, by decide⟩

/-- C3 (amended): for every accepted submission exactly one user turn
is appended up front; on success exactly one assistant turn is appended;
on failure no turn at all is appended and the error is tracked only as
the banner-level message. -/
theorem chat_submission_ack (s s1 : ChatState) (req : ChatRequest)
    (h : onSendChatStart s = (s1, some req)) :
    s1.messages =
      s.messages ++ [{ role := Role.user, content := trimStr s.input }] ∧
    (∀ d, (onSendChatSuccess s1 d).messages =
      s1.messages ++ [{ role := Role.assistant, content := answerText d }]) ∧
    (∀ m, (onSendChatFailure s1 m).messages = s1.messages ∧
      (onSendChatFailure s1 m).chatError = some m) := by
  unfold onSendChatStart at h
  by_cases hg : trimStr s.input = [] ∨ s.chatLoading = true
  · rw [if_pos hg] at h
    simp at h
  · rw [if_neg hg] at h
    simp only [Prod.mk.injEq] at h
    obtain ⟨h1, _⟩ := h
    subst h1
    exact ⟨rfl, fun d => rfl, fun m => ⟨rfl, rfl⟩⟩

/-- C3 (witness): the amended theorem applied to a concrete accepted
submission. -/
theorem chat_submission_ack_witness :
    (onSendChatStart chatHiState).1.messages =
      chatHiState.messages ++ [{ role := Role.user, content := "hi".data }] :=
  (chat_submission_ack chatHiState (onSendChatStart chatHiState).1
    { url := API_chat,
      messages := [{ role := Role.assistant, content := greetingText },
                   { role := Role.user, content := "hi".data }] }
    (by decide)).1

/-- C4 (confirmed, spec-modelled): the parser returns none for every
input that does not begin with a recognized command token (stated
contrapositively: a parsed input begins, after trimming and lowering,
with one of the two tokens), and the concrete example from the spec
parses into kind story, objective "fix login", context "urgent". -/
theorem parse_command_spec :
    (∀ s : Str, ¬parse s = none →
      ("/story".data.isPrefixOf (lowerStr (trimStr s)) = true ∨
       "/rtr".data.isPrefixOf (lowerStr (trimStr s)) = true)) ∧
    parse "/story fix login | ctx: urgent".data =
      some { kind := "story".data, objective := "fix login".data,
             context := some "urgent".data } := by
  constructor
  · intro s h
    cases hf : commandTokens.find? (fun t => tokenMatches t.1 (trimStr s)) with
    | none =>
      exfalso
      apply h
      simp only [parse]
      rw [hf]
    | some tk =>
      have hp := List.find?_some hf
      have hmem := List.mem_of_find?_eq_some hf
      unfold tokenMatches at hp
      simp only [Bool.and_eq_true] at hp
      have hpref := hp.1
      simp only [commandTokens, List.mem_cons, List.not_mem_nil,
        or_false] at hmem
      rcases hmem with h1 | h1
      · left
        rw [h1] at hpref
        exact hpref
      · right
        rw [h1] at hpref
        exact hpref
  · decide

/-- C4 (witness): the characterization applied to a concrete parsed
input. -/
theorem parse_command_spec_witness :
    "/story".data.isPrefixOf (lowerStr (trimStr "/story x".data)) = true ∨
    "/rtr".data.isPrefixOf (lowerStr (trimStr "/story x".data)) = true :=
  parse_command_spec.1 "/story x".data (by decide)

/-- C5 (confirmed): the normalized answer never contains three
consecutive newlines; strings without a three-newline run are left
unchanged; dropping one newline from a run of three or more does not
change the result (the one-step regex semantics), and characters not
heading such a run are copied verbatim; the normalized text is the
em-dash placeholder or has no edge whitespace, and is never empty;
normalizing the empty payload yields the placeholder and no citations;
and the spec example collapses as stated. -/
theorem normalize_clean_spec :
    (∀ s : Str, hasTripleNL (cleanMultiline s) = false) ∧
    (∀ s : Str, hasTripleNL s = false → cleanMultiline s = s) ∧
    (∀ s : Str, cleanMultiline ('\n' :: '\n' :: '\n' :: s) =
      cleanMultiline ('\n' :: '\n' :: s)) ∧
    (∀ (c : Char) (rest : Str), (c = '\n' → startsNN rest = false) →
      cleanMultiline (c :: rest) = c :: cleanMultiline rest) ∧
    (∀ d : ChatResponse,
      (normalizeChat d).1 = emDash ∨ noEdgeWs (normalizeChat d).1 = true) ∧
    (∀ d : ChatResponse, (normalizeChat d).1.isEmpty = false) ∧
    normalizeChat {} = (emDash, []) ∧
    cleanMultiline "hi\n\n\n\nthere".data = "hi\n\nthere".data := by
  refine ⟨fun s => (collapse_master false s).1,
    fun s h => (clean_master false s).1 rfl h,
    cleanMultiline_step3, cleanMultiline_step1, fun d => ?_, fun d => ?_,
    by decide, by decide⟩
  · show answerText d = emDash ∨ noEdgeWs (answerText d) = true
    unfold answerText
    by_cases h : cleanMultiline (trimStr (d.answer.getD [])) = []
    · rw [if_pos h]
      left
      rfl
    · rw [if_neg h]
      right
      exact clean_noEdge _ (trimStr_noEdge _)
  · show (answerText d).isEmpty = false
    unfold answerText
    by_cases h : cleanMultiline (trimStr (d.answer.getD [])) = []
    · rw [if_pos h]
      decide
    · rw [if_neg h]
      simpa using h

/-- C5 (witness): the clean-string identity applied to a concrete
string. -/
theorem normalize_clean_spec_witness :
    cleanMultiline "ab\n\nc".data = "ab\n\nc".data :=
  normalize_clean_spec.2.1 "ab\n\nc".data (by decide)

/-- C6 (confirmed): submitting blank input or submitting while a
request is in flight is rejected before any state change: the state is
returned untouched and no request is issued. -/
theorem submit_rejected_when_blank_or_inflight (s : ChatState)
    (h : trimStr s.input = [] ∨ s.chatLoading = true) :
    onSendChatStart s = (s, none) := by
  unfold onSendChatStart
  rw [if_pos h]

/-- C6 (witness): the guard applied to the initial state (blank input)
and to a loading state. -/
theorem submit_rejected_when_blank_or_inflight_witness :
    onSendChatStart initChatState = (initChatState, none) ∧
    onSendChatStart { chatHiState with chatLoading := true } =
      ({ chatHiState with chatLoading := true }, none) := by
  refine ⟨submit_rejected_when_blank_or_inflight initChatState
    (Or.inl (by decide)), submit_rejected_when_blank_or_inflight _
    (Or.inr (by decide))⟩

/-- C7 (confirmed): a preview whose trimmed objective is empty
short-circuits: the only state change is the local validation hint, and
no request is issued. -/
theorem preview_blank_objective_local (s : StoryState)
    (h : trimStr s.storyObj = []) :
    onStoryPreviewStart s =
      ({ s with storyError := some hintObjetivo }, none) := by
  unfold onStoryPreviewStart
  rw [if_pos h]

/-- C7 (witness): the guard applied to a state whose objective is
whitespace only. -/
theorem preview_blank_objective_local_witness :
    onStoryPreviewStart { storyExample with storyObj := "   ".data } =
      ({ storyExample with storyObj := "   ".data,
                           storyError := some hintObjetivo }, none) :=
  preview_blank_objective_local
    { storyExample with storyObj := "   ".data } (by decide)

/-- C8 (confirmed): a failed approval attempt updates only the error
field (and drops the loading flag raised for the attempt): objective,
context, preview text, citations and saved location all keep the values
they had before the attempt. -/
theorem approve_failure_frame (s : StoryState) (m : Str) :
    onStoryApproveFailure (onStoryApproveStart s).1 m =
      { s with storyError := some m, storyLoading := false } := by
  unfold onStoryApproveStart onStoryApproveFailure
  by_cases h : trimStr s.storyObj = []
  · rw [if_pos h]
  · rw [if_neg h]

/-- C9 (confirmed): the outgoing chat request goes to the chat endpoint
and its body is exactly the prior transcript reduced to role/content
pairs, oldest first, followed by the new user turn as last element. -/
theorem chat_request_is_full_history (s s1 : ChatState) (req : ChatRequest)
    (h : onSendChatStart s = (s1, some req)) :
    req.url = API_chat ∧
    req.messages =
      (s.messages.map (fun m => { role := m.role, content := m.content })) ++
        [{ role := Role.user, content := trimStr s.input }] := by
  unfold onSendChatStart at h
  by_cases hg : trimStr s.input = [] ∨ s.chatLoading = true
  · rw [if_pos hg] at h
    simp at h
  · rw [if_neg hg] at h
    simp only [Prod.mk.injEq, Option.some.injEq] at h
    obtain ⟨-, h2⟩ := h
    subst h2
    exact ⟨rfl, by rw [List.map_append]; rfl⟩

/-- C9 (witness): the request-body theorem applied to a concrete
submission. -/
theorem chat_request_is_full_history_witness :
    ({ url := API_chat,
       messages := [{ role := Role.assistant, content := greetingText },
                    { role := Role.user, content := "hi".data }] }
      : ChatRequest).messages =
      (chatHiState.messages.map
        (fun m => { role := m.role, content := m.content : WireMsg })) ++
        [{ role := Role.user, content := trimStr chatHiState.input }] :=
  (chat_request_is_full_history chatHiState (onSendChatStart chatHiState).1
    { url := API_chat,
      messages := [{ role := Role.assistant, content := greetingText },
                   { role := Role.user, content := "hi".data }] }
    (by decide)).2

/-- C10 (confirmed): a preview with a non-blank objective resets the
per-artifact state before the request is issued: the saved location is
set back to none and the previous preview, citations and error are
cleared, while the request carries the current objective and context. -/
theorem preview_resets_artifact_state (s : StoryState)
    (h : ¬trimStr s.storyObj = []) :
    onStoryPreviewStart s =
      ({ s with storyError := none, storyPreview := [],
                storySavedUri := none, storyCitations := [],
                storyLoading := true },
       some { url := API_story, objetivo := s.storyObj,
              contexto := ctxOrNull s.storyCtx, approve := false }) := by
  unfold onStoryPreviewStart
  rw [if_neg h]

/-- C10 (witness): the reset theorem applied to a state carrying a
saved artifact from an earlier lifecycle. -/
theorem preview_resets_artifact_state_witness :
    onStoryPreviewStart storySavedExample =
      ({ storySavedExample with storyError := none, storyPreview := [],
                                storySavedUri := none, storyCitations := [],
                                storyLoading := true },
       some { url := API_story, objetivo := "fix login".data,
              contexto := none, approve := false }) :=
  preview_resets_artifact_state storySavedExample (by decide)

end Bedrock
